import Mathlib

/-!
Verification of the permessage-deflate WebSocket extension package
(parameter negotiation, RSV-bit frame extension, and the trailer-checking
stream writer), shallowly embedded from the Go sources.

Conventions of the embedding:
* Go byte slices used as textual tokens (option names, parameter keys and
  values) become `String`; the Go code only ever compares them for equality
  and tests their length, and a `nil`/empty slice is represented by `""`
  (the source only ever checks `len(val) == 0` / `len(val) > 0`).
* `WindowBits` (a Go `byte`) becomes `Nat`; the comparisons performed by
  `Negotiate` are plain numeric comparisons, as in the source.
* Fallible operations return a result paired with an `Option` error value,
  mirroring Go's `(result, err)` convention; `none` is Go's `nil` error.
* A Go `panic` (from `setBits` on an invalid window value) is modelled by
  an outer `Option`: `none` means the call panicked.
-/

namespace Wsflate

/-- A tokenized HTTP header option as produced by the external `httphead`
tokenizer: a name together with an ordered list of (key, value) parameter
pairs.  An absent value is `""` (the source only inspects value length). -/
structure Opt where
  name : String
  params : List (String × String)
deriving DecidableEq, Repr

/-- The zero `httphead.Option` value: empty name, no parameters. -/
def zeroOpt : Opt := ⟨"", []⟩

def ExtensionName : String := "permessage-deflate"

def serverNoContextTakeover : String := "server_no_context_takeover"
def clientNoContextTakeover : String := "client_no_context_takeover"
def serverMaxWindowBits : String := "server_max_window_bits"
def clientMaxWindowBits : String := "client_max_window_bits"

/-- `isValidBits` from the source: window-bits exponents valid per the RFC. -/
def isValidBits (x : Nat) : Bool := 8 ≤ x && x ≤ 15

/-- The `windowBits` table from the source, filled by `init()` with the
decimal strings of `8..15`; entry `i` is the encoding of value `i + 8`. -/
def windowBits : List String := ["8", "9", "10", "11", "12", "13", "14", "15"]

/-- Compression extension options (`Parameters` in the source).  Window-bits
fields are `WindowBits` (a byte) in Go, here `Nat`; `0` means not specified,
`1` means present-but-bare, `8..15` is an explicit exponent. -/
structure Parameters where
  ServerNoContextTakeover : Bool := false
  ClientNoContextTakeover : Bool := false
  ServerMaxWindowBits : Nat := 0
  ClientMaxWindowBits : Nat := 0
deriving DecidableEq, Repr

/-- An error built by `paramError` in the source: carries the classification
string ("duplicate" / "invalid" / "unexpected") and the offending key and
value. -/
structure ParamError where
  reason : String
  key : String
  val : String
deriving DecidableEq, Repr

def paramError (reason key val : String) : ParamError := ⟨reason, key, val⟩

/-- Modelled from the external `httphead` dependency (not part of this
repository): `IntFromASCII` parses a decimal ASCII integer, failing on an
empty string or any non-digit character. -/
def IntFromASCII (s : String) : Option Nat :=
  if s.data ≠ [] && s.data.all Char.isDigit then
    some (s.data.foldl (fun n c => n * 10 + (c.toNat - 48)) 0)
  else
    none

/-- `bitsFromASCII` from the source: parse a decimal value and require it to
be a valid window-bits exponent; Go returns `(0, false)` on failure, here
`none`. -/
def bitsFromASCII (s : String) : Option Nat :=
  match IntFromASCII s with
  | none => none
  | some n => if isValidBits n then some n else none

/- The `seen` bit flags of `Parameters.Parse`, in declaration order of the
source's `iota` block. -/
def clientMaxWindowBitsSeen : Nat := 1
def serverMaxWindowBitsSeen : Nat := 2
def clientNoContextTakeoverSeen : Nat := 4
def serverNoContextTakeoverSeen : Nat := 8

/-- One iteration of the `ForEach` callback inside `Parameters.Parse`:
given the parameters built so far, the `seen` bit set and the current
(key, value) pair, produce the updated parameters, updated `seen` bits and
(when the callback returns `false`) the error.  Mirrors the Go `switch`
case by case, including the order of the emptiness, duplicate and value
checks. -/
def parseStep (p : Parameters) (seen : Nat) (key val : String) :
    Parameters × Nat × Option ParamError :=
  if key = clientMaxWindowBits then
    if val = "" then
      ({ p with ClientMaxWindowBits := 1 }, seen, none)
    else if seen &&& clientMaxWindowBitsSeen ≠ 0 then
      (p, seen, some (paramError "duplicate" key val))
    else
      match bitsFromASCII val with
      | some b => ({ p with ClientMaxWindowBits := b },
                   seen ||| clientMaxWindowBitsSeen, none)
      | none => ({ p with ClientMaxWindowBits := 0 },
                 seen ||| clientMaxWindowBitsSeen,
                 some (paramError "invalid" key val))
  else if key = serverMaxWindowBits then
    if val = "" then
      (p, seen, some (paramError "invalid" key val))
    else if seen &&& serverMaxWindowBitsSeen ≠ 0 then
      (p, seen, some (paramError "duplicate" key val))
    else
      match bitsFromASCII val with
      | some b => ({ p with ServerMaxWindowBits := b },
                   seen ||| serverMaxWindowBitsSeen, none)
      | none => ({ p with ServerMaxWindowBits := 0 },
                 seen ||| serverMaxWindowBitsSeen,
                 some (paramError "invalid" key val))
  else if key = clientNoContextTakeover then
    if val ≠ "" then
      (p, seen, some (paramError "invalid" key val))
    else if seen &&& clientNoContextTakeoverSeen ≠ 0 then
      (p, seen, some (paramError "duplicate" key val))
    else
      ({ p with ClientNoContextTakeover := true },
       seen ||| clientNoContextTakeoverSeen, none)
  else if key = serverNoContextTakeover then
    if val ≠ "" then
      (p, seen, some (paramError "invalid" key val))
    else if seen &&& serverNoContextTakeoverSeen ≠ 0 then
      (p, seen, some (paramError "duplicate" key val))
    else
      ({ p with ServerNoContextTakeover := true },
       seen ||| serverNoContextTakeoverSeen, none)
  else
    (p, seen, some (paramError "unexpected" key val))

/-- The `ForEach` loop of `Parameters.Parse`: fold `parseStep` over the
pairs in order, stopping at the first error (callback returning `false`). -/
def parseLoop : List (String × String) → Parameters → Nat →
    Parameters × Nat × Option ParamError
  | [], p, seen => (p, seen, none)
  | (k, v) :: rest, p, seen =>
    match parseStep p seen k v with
    | (p', seen', none) => parseLoop rest p' seen'
    | (p', seen', some e) => (p', seen', some e)

/-- `Parameters.Parse` from the source.  The Go method first resets the
receiver (`*p = Parameters{}`), so the result does not depend on the prior
value of the receiver; we therefore take only the option and return the
final state of the receiver together with the error (`none` = `nil`). -/
def Parameters.Parse (opt : Opt) : Parameters × Option ParamError :=
  let r := parseLoop opt.params {} 0
  (r.1, r.2.2)

/-- `setBool` from the source: emit a valueless parameter when the flag is
set. -/
def setBool (ps : List (String × String)) (name : String) (flag : Bool) :
    List (String × String) :=
  if flag then ps ++ [(name, "")] else ps

/-- `setBits` from the source: emit nothing for `0`, a bare parameter for
`1`, the decimal encoding for a valid `8..15` value, and panic (`none`)
otherwise. -/
def setBits (ps : List (String × String)) (name : String) (bits : Nat) :
    Option (List (String × String)) :=
  if bits = 0 then some ps
  else if bits = 1 then some (ps ++ [(name, "")])
  else if !isValidBits bits then none
  else some (ps ++ [(name, windowBits.getD (bits - 8) "")])

/-- `Parameters.Option` from the source: encode parameters into a tokenized
option named `permessage-deflate`.  `none` models the Go panic raised by
`setBits` on a window-bits value outside `{0, 1, 8..15}`. -/
def Parameters.Option (p : Parameters) : Option Opt :=
  let ps := setBool [] serverNoContextTakeover p.ServerNoContextTakeover
  let ps := setBool ps clientNoContextTakeover p.ClientNoContextTakeover
  match setBits ps serverMaxWindowBits p.ServerMaxWindowBits with
  | none => none
  | some ps =>
    match setBits ps clientMaxWindowBits p.ClientMaxWindowBits with
    | none => none
    | some ps => some ⟨ExtensionName, ps⟩

/-- Negotiation state (`Extension` in the source): the desired parameters
configured by the caller, the accepted flag and the last parsed offer. -/
structure Extension where
  /-- The `Parameters` field of the Go struct: the parameters this endpoint
  is going to accept.  Renamed `desired` here because a field named like
  its own type cannot be declared in Lean. -/
  desired : Parameters := {}
  accepted : Bool := false
  params : Parameters := {}
deriving DecidableEq, Repr

/-- `Extension.Negotiate` from the source.  The result is `none` when the
call panics (only possible through `Parameters.Option` on invalid desired
bits), otherwise `some (n', accept, err)` with the post-call state `n'`,
the returned accept option and the returned error. -/
def Extension.Negotiate (n : Extension) (opt : Opt) :
    Option (Extension × Opt × Option ParamError) :=
  if opt.name ≠ ExtensionName then
    some (n, zeroOpt, none)
  else if n.accepted then
    -- Negotiate might be called multiple times during upgrade; the first
    -- accepted extension wins.
    some (n, zeroOpt, none)
  else
    let want := n.desired
    match Parameters.Parse opt with
    | (q, some e) => some ({ n with params := q }, zeroOpt, some e)
    | (q, none) =>
      let n' : Extension := { n with params := q }
      if q.ServerMaxWindowBits > want.ServerMaxWindowBits then
        some (n', zeroOpt, none)
      else if want.ClientMaxWindowBits > q.ClientMaxWindowBits then
        some (n', zeroOpt, none)
      else if q.ServerNoContextTakeover && !want.ServerNoContextTakeover then
        some (n', zeroOpt, none)
      else
        match want.Option with
        | some o => some ({ n' with accepted := true }, o, none)
        | none => none

/-- `Extension.Accepted` from the source: the last parsed parameters and
the accepted flag. -/
def Extension.Accepted (n : Extension) : Parameters × Bool :=
  (n.params, n.accepted)

/-- `Extension.Reset` from the source. -/
def Extension.Reset (n : Extension) : Extension :=
  { n with accepted := false, params := {} }

/-! ### RSV-bit frame extension (`extension.go` of the wsflate package)

The frame header's reserved field is three bits; the external `gobwas/ws`
helpers `Rsv` and `RsvBits` pack and unpack them with r1 as the highest
bit. -/

/-- Modelled from the spec (external `gobwas/ws` dependency): pack the
three reserved bits into the reserved field, r1 highest. -/
def Rsv (r1 r2 r3 : Bool) : Nat :=
  (if r1 then 4 else 0) ||| (if r2 then 2 else 0) ||| (if r3 then 1 else 0)

/-- Modelled from the spec (external `gobwas/ws` dependency): decompose the
reserved field into its three bits (r1, r2, r3). -/
def RsvBits (rsv : Nat) : Bool × Bool × Bool :=
  (rsv &&& 4 != 0, rsv &&& 2 != 0, rsv &&& 1 != 0)

/-- Errors produced by the RSV-bit extender functions. -/
inductive RsvErr where
  /-- `errNonFirstFragmentEnabledBit`, a `ws.ProtocolError` in the source. -/
  | protocolViolation (msg : String)
  /-- The `fmt.Errorf` raised by `ExtendWrite` when r1 is already set. -/
  | compressionBitAlreadySet
deriving DecidableEq, Repr

def errNonFirstFragmentEnabledBit : RsvErr :=
  .protocolViolation "non-first fragment contains compression bit enabled"

/-- `ExtendRead` from the source: validate and consume the compression bit
of a received frame header, given the fragment sequence index. -/
def ExtendRead (fseq rsv : Nat) : Nat × Option RsvErr :=
  if fseq > 0 && (RsvBits rsv).1 then
    (rsv, some errNonFirstFragmentEnabledBit)
  else if fseq > 0 then
    (rsv, none)
  else
    (Rsv false (RsvBits rsv).2.1 (RsvBits rsv).2.2, none)

/-- `ExtendWrite` from the source: set the compression bit on the first
fragment of an outgoing message. -/
def ExtendWrite (fseq rsv : Nat) : Nat × Option RsvErr :=
  if (RsvBits rsv).1 then
    (rsv, some .compressionBitAlreadySet)
  else if fseq > 0 then
    (rsv, none)
  else
    (Rsv true (RsvBits rsv).2.1 (RsvBits rsv).2.2, none)

/-! ### Stream writer with trailer suppression

`Writer` holds a caller-supplied compressor (an external callback), a
poisoned-error field `err`, and a 4-byte delayed-write buffer `cbuf` whose
`buf` field holds the last four bytes the compressor produced (held back
from the destination).  The `cbuf` type itself is not among the sources;
its `buf` field is modelled from the spec: a fixed 4-byte hold-back buffer
compared against the trailer at flush/close time.

The compressor is external: each operation that invokes it takes the
invocation's observable outcome — the error it returned and the contents
the hold-back buffer ends up with — as an explicit argument.  A poisoned
writer's result does not depend on that argument, which is how the
"without invoking the compressor" part of the source's early returns shows
up in the model. -/

/-- Errors a `Writer` can hold: either an error returned by the external
compressor, or the `checkTail` mismatch error carrying the offending
hold-back bytes. -/
inductive WriterErr where
  | compressorFailed (msg : String)
  | badTail (buf : List Nat)
deriving DecidableEq, Repr

/-- `compressionTail`: the raw-deflate sync-flush trailer `00 00 FF FF`. -/
def compressionTail : List Nat := [0x00, 0x00, 0xff, 0xff]

/-- The state of a `Writer`: the poisoned-error field and the 4 held-back
bytes of `cbuf` (modelled from the spec, see above). -/
structure Writer where
  err : Option WriterErr := none
  cbufBuf : List Nat := [0, 0, 0, 0]
deriving DecidableEq, Repr

/-- `Writer.checkTail` from the source: when no error is pending and the
held-back bytes differ from `compressionTail`, record the bad-tail error. -/
def Writer.checkTail (w : Writer) : Writer :=
  if w.err = none ∧ w.cbufBuf ≠ compressionTail then
    { w with err := some (.badTail w.cbufBuf) }
  else
    w

/-- The observable outcome of one call into the external compressor: the
error it returned (`none` = `nil`, also covering "interface not
implemented" for `Close`) and the held-back bytes after its writes. -/
structure CompressorOutcome where
  err : Option WriterErr := none
  buf : List Nat := [0, 0, 0, 0]
deriving DecidableEq, Repr

/-- `Writer.Write` from the source: an already-poisoned writer returns its
stored error without touching the compressor; otherwise the compressor is
invoked and its returned count and error are propagated (and stored). -/
def Writer.Write (w : Writer) (n : Nat) (c : CompressorOutcome) :
    Writer × Nat × Option WriterErr :=
  if w.err ≠ none then
    (w, 0, w.err)
  else
    ({ err := c.err, cbufBuf := c.buf }, n, c.err)

/-- `Writer.Flush` from the source: an already-poisoned writer returns its
stored error; otherwise the compressor's `Flush` error is stored, the tail
is checked, and the resulting error returned. -/
def Writer.Flush (w : Writer) (c : CompressorOutcome) :
    Writer × Option WriterErr :=
  if w.err ≠ none then
    (w, w.err)
  else
    let w' := Writer.checkTail { err := c.err, cbufBuf := c.buf }
    (w', w'.err)

/-- `Writer.Close` from the source: an already-poisoned writer returns its
stored error; otherwise the compressor's `Close` error (or `nil` when it
does not implement `io.Closer`) is stored, the tail is checked, and the
resulting error returned. -/
def Writer.Close (w : Writer) (c : CompressorOutcome) :
    Writer × Option WriterErr :=
  if w.err ≠ none then
    (w, w.err)
  else
    let w' := Writer.checkTail { err := c.err, cbufBuf := c.buf }
    (w', w'.err)

/-- `Writer.Reset` from the source: clears the poisoned error state and
resets the hold-back buffer (the `cbuf.reset` call is modelled from the
spec; rebinding the destination and resetting or recreating the compressor
have no footprint in this state). -/
def Writer.Reset (w : Writer) : Writer :=
  { w with err := none, cbufBuf := [0, 0, 0, 0] }

/-! ### Helper lemmas -/

/-- Unpacking the reserved field after packing recovers the three bits. -/
theorem RsvBits_Rsv (b1 b2 b3 : Bool) : RsvBits (Rsv b1 b2 b3) = (b1, b2, b3) := by
  cases b1 <;> cases b2 <;> cases b3 <;> decide

/-- Every option `Parameters.Option` successfully produces is named
`permessage-deflate`. -/
theorem paramsOption_name (p : Parameters) (o : Opt)
    (h : Parameters.Option p = some o) : o.name = ExtensionName := by
  unfold Parameters.Option at h
  simp only [] at h
  split at h
  · exact absurd h (by simp)
  · split at h
    · exact absurd h (by simp)
    · injection h with h2
      rw [← h2]

/-- `parseLoop` distributes over list append: parse the first chunk, and
continue with the second only when no error stopped the loop. -/
theorem parseLoop_append (l1 l2 : List (String × String)) (p : Parameters)
    (seen : Nat) :
    parseLoop (l1 ++ l2) p seen =
      match parseLoop l1 p seen with
      | (p', seen', none) => parseLoop l2 p' seen'
      | (p', seen', some e) => (p', seen', some e) := by
  induction l1 generalizing p seen with
  | nil => simp [parseLoop]
  | cons kv rest ih =>
    obtain ⟨k, v⟩ := kv
    simp only [List.cons_append, parseLoop]
    rcases h : parseStep p seen k v with ⟨p', seen', e?⟩
    cases e? <;> simp [ih]

/-! ### Claim theorems -/

/-- C5: once an `Extension` has `accepted = true`, any further `Negotiate`
call — with any offer whatsoever — returns the zero option with nil error
and leaves the whole state (hence the accepted flag and the observed
parameters returned by `Accepted`) unchanged, and `Reset` clears the
accepted flag. -/
theorem negotiate_after_accept_noop (n : Extension) (opt : Opt)
    (h : n.accepted = true) :
    n.Negotiate opt = some (n, zeroOpt, none) ∧
    n.Reset.accepted = false := by
  refine ⟨?_, rfl⟩
  by_cases hn : opt.name = ExtensionName <;>
    simp [Extension.Negotiate, hn, h]

theorem negotiate_after_accept_noop_witness :
    ({ accepted := true } : Extension).accepted = true ∧
    (({ accepted := true } : Extension).Negotiate
        ⟨ExtensionName, [(serverMaxWindowBits, "10")]⟩ =
      some ({ accepted := true }, zeroOpt, none) ∧
    ({ accepted := true } : Extension).Reset.accepted = false) :=
  ⟨rfl, negotiate_after_accept_noop { accepted := true }
      ⟨ExtensionName, [(serverMaxWindowBits, "10")]⟩ rfl⟩

/-- C6: `ExtendRead` fails with the protocol-violation error when the
fragment index is positive and r1 is set, passes `rsv` through unchanged
when the fragment index is positive and r1 is clear, and on fragment index
0 succeeds with r1 cleared and r2, r3 preserved. -/
theorem extendRead_spec (fseq rsv : Nat) :
    (fseq > 0 → (RsvBits rsv).1 = true →
      ExtendRead fseq rsv = (rsv, some errNonFirstFragmentEnabledBit)) ∧
    (fseq > 0 → (RsvBits rsv).1 = false →
      ExtendRead fseq rsv = (rsv, none)) ∧
    (fseq = 0 →
      (ExtendRead fseq rsv).2 = none ∧
      RsvBits (ExtendRead fseq rsv).1 =
        (false, (RsvBits rsv).2.1, (RsvBits rsv).2.2)) := by
  refine ⟨fun hf h1 => ?_, fun hf h1 => ?_, fun hf => ?_⟩
  · simp [ExtendRead, hf, h1]
  · simp [ExtendRead, hf, h1]
  · subst hf
    simp [ExtendRead, RsvBits_Rsv]

theorem extendRead_spec_witness :
    ((2 : Nat) > 0 ∧ (RsvBits 4).1 = true ∧
      ExtendRead 2 4 = (4, some errNonFirstFragmentEnabledBit)) ∧
    ((2 : Nat) > 0 ∧ (RsvBits 3).1 = false ∧ ExtendRead 2 3 = (3, none)) ∧
    ((ExtendRead 0 7).2 = none ∧
      RsvBits (ExtendRead 0 7).1 = (false, (RsvBits 7).2.1, (RsvBits 7).2.2)) :=
  ⟨⟨by decide, by decide, (extendRead_spec 2 4).1 (by decide) (by decide)⟩,
   ⟨by decide, by decide, (extendRead_spec 2 3).2.1 (by decide) (by decide)⟩,
   (extendRead_spec 0 7).2.2 rfl⟩

/-- C7: on fragment index 0 with all three reserved bits clear,
`ExtendWrite` then `ExtendRead` is the identity (write sets r1, read
validates and clears it), with no error from either; and in every
successful branch of both functions the r2 and r3 bits of the result equal
those of the input. -/
theorem extend_write_read_spec :
    (∀ rsv : Nat, rsv < 8 → RsvBits rsv = (false, false, false) →
      ExtendWrite 0 rsv = (Rsv true false false, none) ∧
      ExtendRead 0 (Rsv true false false) = (rsv, none)) ∧
    (∀ fseq rsv w : Nat, ExtendWrite fseq rsv = (w, none) →
      (RsvBits w).2 = (RsvBits rsv).2) ∧
    (∀ fseq rsv w : Nat, ExtendRead fseq rsv = (w, none) →
      (RsvBits w).2 = (RsvBits rsv).2) := by
  refine ⟨?_, ?_, ?_⟩
  · intro rsv hlt hb
    interval_cases rsv <;> revert hb <;> decide
  · intro fseq rsv w h
    unfold ExtendWrite at h
    split_ifs at h with h1 h2
    · simp at h
    · obtain ⟨rfl, -⟩ := Prod.mk.injEq .. ▸ h
      rfl
    · obtain ⟨rfl, -⟩ := Prod.mk.injEq .. ▸ h
      rw [RsvBits_Rsv]
  · intro fseq rsv w h
    unfold ExtendRead at h
    split_ifs at h with h1 h2
    · simp at h
    · obtain ⟨rfl, -⟩ := Prod.mk.injEq .. ▸ h
      rfl
    · obtain ⟨rfl, -⟩ := Prod.mk.injEq .. ▸ h
      rw [RsvBits_Rsv]

theorem extend_write_read_spec_witness :
    ((0 : Nat) < 8 ∧ RsvBits 0 = (false, false, false) ∧
      (ExtendWrite 0 0 = (Rsv true false false, none) ∧
       ExtendRead 0 (Rsv true false false) = (0, none))) ∧
    (ExtendWrite 1 2 = (2, none) ∧ (RsvBits 2).2 = (RsvBits 2).2) :=
  ⟨⟨by decide, by decide, extend_write_read_spec.1 0 (by decide) (by decide)⟩,
   ⟨by decide, extend_write_read_spec.2.1 1 2 2 (by decide)⟩⟩

/-- C8: with no pending error and a compressor whose flush/close call
itself succeeds, `Flush` and `Close` return an error exactly when the four
held-back bytes differ from the trailer `00 00 FF FF` — and that error is
the adapter-contract-violation (`badTail`) error — and return nil when the
bytes equal the trailer. -/
theorem writer_tail_check_spec (w : Writer) (buf : List Nat)
    (hw : w.err = none) :
    (w.Flush ⟨none, buf⟩).2 =
      (if buf = compressionTail then none
       else some (WriterErr.badTail buf)) ∧
    ((w.Flush ⟨none, buf⟩).2 = none ↔ buf = compressionTail) ∧
    (w.Close ⟨none, buf⟩).2 =
      (if buf = compressionTail then none
       else some (WriterErr.badTail buf)) ∧
    ((w.Close ⟨none, buf⟩).2 = none ↔ buf = compressionTail) := by
  have hmain : ∀ b : List Nat,
      (Writer.checkTail { err := none, cbufBuf := b }).err =
        (if b = compressionTail then none
         else some (WriterErr.badTail b)) := by
    intro b
    by_cases hb : b = compressionTail <;> simp [Writer.checkTail, hb]
  refine ⟨?_, ?_, ?_, ?_⟩ <;>
    simp [Writer.Flush, Writer.Close, hw, hmain]

theorem writer_tail_check_spec_witness :
    ({ } : Writer).err = none ∧
    ((({ } : Writer).Flush ⟨none, [1, 2, 3, 4]⟩).2 =
        (if [1, 2, 3, 4] = compressionTail then none
         else some (WriterErr.badTail [1, 2, 3, 4])) ∧
      ((({ } : Writer).Flush ⟨none, [1, 2, 3, 4]⟩).2 = none ↔
        [1, 2, 3, 4] = compressionTail) ∧
      (({ } : Writer).Close ⟨none, [1, 2, 3, 4]⟩).2 =
        (if [1, 2, 3, 4] = compressionTail then none
         else some (WriterErr.badTail [1, 2, 3, 4])) ∧
      ((({ } : Writer).Close ⟨none, [1, 2, 3, 4]⟩).2 = none ↔
        [1, 2, 3, 4] = compressionTail)) :=
  ⟨rfl, writer_tail_check_spec { } [1, 2, 3, 4] rfl⟩

/-- C9: a `Writer` holding a non-nil error `e` returns `e` from every
subsequent `Write`, `Flush` and `Close`, with the state unchanged and the
result independent of the compressor's behavior (the compressor is not
invoked), until `Reset` sets the stored error back to nil. -/
theorem writer_poisoned_spec (w : Writer) (e : WriterErr)
    (hw : w.err = some e) :
    (∀ n c, w.Write n c = (w, 0, some e)) ∧
    (∀ c, w.Flush c = (w, some e)) ∧
    (∀ c, w.Close c = (w, some e)) ∧
    w.Reset.err = none := by
  refine ⟨fun n c => ?_, fun c => ?_, fun c => ?_, rfl⟩ <;>
    simp [Writer.Write, Writer.Flush, Writer.Close, hw]

theorem writer_poisoned_spec_witness :
    ({ err := some (WriterErr.compressorFailed "boom") } : Writer).err =
      some (WriterErr.compressorFailed "boom") ∧
    (({ err := some (WriterErr.compressorFailed "boom") } : Writer).Write 3
        ⟨none, compressionTail⟩ =
      ({ err := some (WriterErr.compressorFailed "boom") }, 0,
        some (WriterErr.compressorFailed "boom")) ∧
    ({ err := some (WriterErr.compressorFailed "boom") } : Writer).Reset.err =
      none) :=
  ⟨rfl,
   (writer_poisoned_spec { err := some (WriterErr.compressorFailed "boom") }
      (WriterErr.compressorFailed "boom") rfl).1 3 ⟨none, compressionTail⟩,
   (writer_poisoned_spec { err := some (WriterErr.compressorFailed "boom") }
      (WriterErr.compressorFailed "boom") rfl).2.2.2⟩

/-- C1: for a not-yet-accepted extension and a `permessage-deflate` offer
that parses without error, `Negotiate` declines (zero option, nil error)
exactly when the offered server window exceeds the desired one, the
desired client window exceeds the offered one, or the offer requires
server-no-context-takeover while the desired parameters do not provide
it; otherwise it marks the negotiation accepted, stores the parsed offer,
and returns the option encoding of the desired parameters. -/
theorem negotiate_decision_spec (n : Extension) (opt : Opt) (q : Parameters)
    (h1 : opt.name = ExtensionName)
    (h2 : n.accepted = false)
    (h3 : Parameters.Parse opt = (q, none)) :
    ((∃ n', n.Negotiate opt = some (n', zeroOpt, none)) ↔
      (q.ServerMaxWindowBits > n.desired.ServerMaxWindowBits ∨
       n.desired.ClientMaxWindowBits > q.ClientMaxWindowBits ∨
       (q.ServerNoContextTakeover = true ∧
        n.desired.ServerNoContextTakeover = false))) ∧
    (¬ (q.ServerMaxWindowBits > n.desired.ServerMaxWindowBits ∨
        n.desired.ClientMaxWindowBits > q.ClientMaxWindowBits ∨
        (q.ServerNoContextTakeover = true ∧
         n.desired.ServerNoContextTakeover = false)) →
      n.Negotiate opt =
        (n.desired.Option).map
          (fun o => ({ n with params := q, accepted := true }, o, none))) := by
  by_cases c1 : q.ServerMaxWindowBits > n.desired.ServerMaxWindowBits
  · have hd : n.Negotiate opt = some ({ n with params := q }, zeroOpt, none) := by
      simp [Extension.Negotiate, h1, h2, h3, c1]
    exact ⟨by rw [hd]; exact ⟨fun _ => Or.inl c1, fun _ => ⟨_, rfl⟩⟩,
      fun hn => absurd (Or.inl c1) hn⟩
  by_cases c2 : n.desired.ClientMaxWindowBits > q.ClientMaxWindowBits
  · have hd : n.Negotiate opt = some ({ n with params := q }, zeroOpt, none) := by
      simp [Extension.Negotiate, h1, h2, h3, c1, c2]
    exact ⟨by rw [hd]; exact ⟨fun _ => Or.inr (Or.inl c2), fun _ => ⟨_, rfl⟩⟩,
      fun hn => absurd (Or.inr (Or.inl c2)) hn⟩
  by_cases c3 : q.ServerNoContextTakeover = true ∧
      n.desired.ServerNoContextTakeover = false
  · have c3b : (q.ServerNoContextTakeover &&
        !n.desired.ServerNoContextTakeover) = true := by
      simp [c3.1, c3.2]
    have hd : n.Negotiate opt = some ({ n with params := q }, zeroOpt, none) := by
      simp [Extension.Negotiate, h1, h2, h3, c1, c2, c3b]
    exact ⟨by rw [hd]; exact ⟨fun _ => Or.inr (Or.inr c3), fun _ => ⟨_, rfl⟩⟩,
      fun hn => absurd (Or.inr (Or.inr c3)) hn⟩
  · have c3b : (q.ServerNoContextTakeover &&
        !n.desired.ServerNoContextTakeover) = false := by
      cases hq : q.ServerNoContextTakeover <;>
        cases hd : n.desired.ServerNoContextTakeover <;> simp_all
    have ha : n.Negotiate opt =
        (n.desired.Option).map
          (fun o => ({ n with params := q, accepted := true }, o, none)) := by
      simp only [Extension.Negotiate, h1, h2, h3]
      simp [c1, c2, c3b]
      cases n.desired.Option <;> simp
    refine ⟨?_, fun _ => ha⟩
    rw [ha]
    constructor
    · rintro ⟨n', hn'⟩
      exfalso
      cases ho : n.desired.Option with
      | none => rw [ho] at hn'; simp at hn'
      | some o =>
        rw [ho] at hn'
        have hn2 : ({ n with params := q, accepted := true }, o,
            (none : Option ParamError)) = (n', zeroOpt, none) :=
          Option.some.inj hn'
        have ho2 : o = zeroOpt := congrArg (fun t => t.2.1) hn2
        have hname := paramsOption_name _ _ ho
        rw [ho2] at hname
        exact absurd hname (by decide)
    · intro hcond
      rcases hcond with hc | hc | hc
      · exact absurd hc c1
      · exact absurd hc c2
      · exact absurd hc c3

theorem negotiate_decision_spec_witness :
    ({ } : Extension).Negotiate ⟨ExtensionName, []⟩ =
      ((({ } : Extension).desired.Option).map
        (fun o => ({ accepted := true }, o, none))) :=
  (negotiate_decision_spec { } ⟨ExtensionName, []⟩ { } rfl rfl (by decide)).2
    (by decide)

/-- C2 (amended): for an extension whose `accepted` flag is false and a
`permessage-deflate` offer whose parameters fail to parse, `Negotiate`
returns that parse error (with the zero option), leaves the accepted flag
false, and replaces the observed parameters with the partially-applied
result of the failed parse — they are not, in general, unchanged. -/
theorem negotiate_parse_error_spec (n : Extension) (opt : Opt)
    (q : Parameters) (e : ParamError)
    (h1 : opt.name = ExtensionName)
    (h2 : n.accepted = false)
    (h3 : Parameters.Parse opt = (q, some e)) :
    n.Negotiate opt = some ({ n with params := q }, zeroOpt, some e) ∧
    ({ n with params := q } : Extension).accepted = false := by
  refine ⟨?_, h2⟩
  simp [Extension.Negotiate, h1, h2, h3]

theorem negotiate_parse_error_spec_witness :
    ({ } : Extension).Negotiate ⟨ExtensionName, [("x", "")]⟩ =
      some ({ }, zeroOpt, some (paramError "unexpected" "x" "")) ∧
    ({ } : Extension).accepted = false :=
  negotiate_parse_error_spec { } ⟨ExtensionName, [("x", "")]⟩ { }
    (paramError "unexpected" "x" "") rfl rfl (by decide)

/-- C2 (counterexample): a parse error does mutate the fields returned by
`Accepted` — the failed parse resets the observed parameters — and on an
already-accepted extension `Negotiate` returns nil error rather than the
parse error.  Both refute the claim as stated over every extension
state. -/
theorem negotiate_parse_error_counterexample :
    (({ params := { ClientNoContextTakeover := true } } : Extension).Negotiate
        ⟨ExtensionName, [("x", "")]⟩ =
      some ({ }, zeroOpt, some (paramError "unexpected" "x" ""))) ∧
    ({ } : Extension).Accepted ≠
      ({ params := { ClientNoContextTakeover := true } } : Extension).Accepted ∧
    (({ accepted := true } : Extension).Negotiate ⟨ExtensionName, [("x", "")]⟩ =
      some ({ accepted := true }, zeroOpt, none)) := by
  decide

/-- C10: an offer that parses successfully but is declined still
overwrites the internal observed state: after the declining `Negotiate`
call, `Accepted` returns the declined offer's parsed parameters together
with `accepted = false`. -/
theorem negotiate_declined_overwrites_observed (n : Extension) (opt : Opt)
    (q : Parameters)
    (h1 : opt.name = ExtensionName)
    (h2 : n.accepted = false)
    (h3 : Parameters.Parse opt = (q, none))
    (h4 : q.ServerMaxWindowBits > n.desired.ServerMaxWindowBits ∨
          n.desired.ClientMaxWindowBits > q.ClientMaxWindowBits ∨
          (q.ServerNoContextTakeover = true ∧
           n.desired.ServerNoContextTakeover = false)) :
    n.Negotiate opt = some ({ n with params := q }, zeroOpt, none) ∧
    ({ n with params := q } : Extension).Accepted = (q, false) := by
  constructor
  · rcases h4 with c1 | c2 | c3
    · simp [Extension.Negotiate, h1, h2, h3, c1]
    · by_cases c1 : q.ServerMaxWindowBits > n.desired.ServerMaxWindowBits <;>
        simp [Extension.Negotiate, h1, h2, h3, c1, c2]
    · have c3b : (q.ServerNoContextTakeover &&
          !n.desired.ServerNoContextTakeover) = true := by
        simp [c3.1, c3.2]
      by_cases c1 : q.ServerMaxWindowBits > n.desired.ServerMaxWindowBits <;>
        by_cases c2 : n.desired.ClientMaxWindowBits > q.ClientMaxWindowBits <;>
          simp [Extension.Negotiate, h1, h2, h3, c1, c2, c3b]
  · simp [Extension.Accepted, h2]

theorem negotiate_declined_overwrites_observed_witness :
    ({ } : Extension).Negotiate ⟨ExtensionName, [(serverMaxWindowBits, "10")]⟩ =
      some ({ params := { ServerMaxWindowBits := 10 } }, zeroOpt, none) ∧
    ({ params := { ServerMaxWindowBits := 10 } } : Extension).Accepted =
      ({ ServerMaxWindowBits := 10 }, false) :=
  negotiate_declined_overwrites_observed { }
    ⟨ExtensionName, [(serverMaxWindowBits, "10")]⟩
    { ServerMaxWindowBits := 10 } rfl rfl (by decide) (Or.inl (by decide))

/-- C3 (counterexample): a recognized key occurring twice does not always
produce a "duplicate" error — the bare (valueless) form of
`client_max_window_bits` neither checks nor sets the seen marker, so an
option carrying it twice parses with nil error; and when the first of two
occurrences carries an invalid value, the error produced is classified
"invalid", not "duplicate". -/
theorem parse_duplicate_counterexample :
    Parameters.Parse
        ⟨ExtensionName, [(clientMaxWindowBits, ""), (clientMaxWindowBits, "")]⟩ =
      ({ ClientMaxWindowBits := 1 }, none) ∧
    Parameters.Parse
        ⟨ExtensionName,
          [(clientMaxWindowBits, "99"), (clientMaxWindowBits, "10")]⟩ =
      ({ ClientMaxWindowBits := 0 },
        some (paramError "invalid" clientMaxWindowBits "99")) := by
  decide

/-- C3 (amended): `Parse` reports a "duplicate" error for the occurrence
of a recognized key whose seen marker is already set, provided that
occurrence reaches the duplicate check: its value must be nonempty for the
two max-window-bits keys and empty for the two no-context-takeover keys
(and the marker for `client_max_window_bits` is only ever set by an
earlier nonempty occurrence, bare ones being invisible to it).  The error
carries that key and value, and the parameters are left at the value
accumulated over the prefix. -/
theorem parse_duplicate_spec (opt : Opt) (pre rest : List (String × String))
    (k v : String) (p : Parameters) (seen : Nat)
    (hsplit : opt.params = pre ++ (k, v) :: rest)
    (hpre : parseLoop pre { } 0 = (p, seen, none))
    (hk : (k = clientMaxWindowBits ∧ seen &&& clientMaxWindowBitsSeen ≠ 0 ∧
            v ≠ "")
        ∨ (k = serverMaxWindowBits ∧ seen &&& serverMaxWindowBitsSeen ≠ 0 ∧
            v ≠ "")
        ∨ (k = clientNoContextTakeover ∧
            seen &&& clientNoContextTakeoverSeen ≠ 0 ∧ v = "")
        ∨ (k = serverNoContextTakeover ∧
            seen &&& serverNoContextTakeoverSeen ≠ 0 ∧ v = "")) :
    Parameters.Parse opt = (p, some (paramError "duplicate" k v)) := by
  have hstep : parseStep p seen k v = (p, seen, some (paramError "duplicate" k v)) := by
    rcases hk with ⟨hkey, hseen, hv⟩ | ⟨hkey, hseen, hv⟩ |
        ⟨hkey, hseen, hv⟩ | ⟨hkey, hseen, hv⟩ <;> subst hkey
    · simp [parseStep, hseen, hv]
    · have hne : serverMaxWindowBits ≠ clientMaxWindowBits := by decide
      simp [parseStep, hne, hseen, hv]
    · have hne1 : clientNoContextTakeover ≠ clientMaxWindowBits := by decide
      have hne2 : clientNoContextTakeover ≠ serverMaxWindowBits := by decide
      simp [parseStep, hne1, hne2, hseen, hv]
    · have hne1 : serverNoContextTakeover ≠ clientMaxWindowBits := by decide
      have hne2 : serverNoContextTakeover ≠ serverMaxWindowBits := by decide
      have hne3 : serverNoContextTakeover ≠ clientNoContextTakeover := by decide
      simp [parseStep, hne1, hne2, hne3, hseen, hv]
  unfold Parameters.Parse
  rw [hsplit, parseLoop_append, hpre]
  simp [parseLoop, hstep]

theorem parse_duplicate_spec_witness :
    parseLoop [(clientNoContextTakeover, "")] { } 0 =
      ({ ClientNoContextTakeover := true }, 4, none) ∧
    Parameters.Parse
        ⟨ExtensionName,
          [(clientNoContextTakeover, ""), (clientNoContextTakeover, "")]⟩ =
      ({ ClientNoContextTakeover := true },
        some (paramError "duplicate" clientNoContextTakeover "")) :=
  ⟨by decide,
   parse_duplicate_spec
     ⟨ExtensionName,
       [(clientNoContextTakeover, ""), (clientNoContextTakeover, "")]⟩
     [(clientNoContextTakeover, "")] [] clientNoContextTakeover ""
     { ClientNoContextTakeover := true } 4 rfl (by decide)
     (Or.inr (Or.inr (Or.inl ⟨rfl, by decide, rfl⟩)))⟩

/-- C4 (counterexample): the bare round-trip fails for the server field —
encoding `ServerMaxWindowBits = 1` emits a bare `server_max_window_bits`
parameter, which `Parse` rejects as invalid (the bare form is only legal
for `client_max_window_bits`), so the round-trip yields an error and a
zero field rather than the bare state. -/
theorem window_bits_roundtrip_counterexample :
    Parameters.Option { ServerMaxWindowBits := 1 } =
      some ⟨ExtensionName, [(serverMaxWindowBits, "")]⟩ ∧
    Parameters.Parse ⟨ExtensionName, [(serverMaxWindowBits, "")]⟩ =
      ({ }, some (paramError "invalid" serverMaxWindowBits "")) := by
  decide

/-- C4 (amended): for every window-bits value v in 8..15, encoding a
`Parameters` holding v in `ServerMaxWindowBits` (resp.
`ClientMaxWindowBits`) via `Option` and parsing the result yields v back
in that field with nil error; the bare form v = 1 round-trips for
`ClientMaxWindowBits` only. -/
theorem window_bits_roundtrip_spec (v : Nat) (h8 : 8 ≤ v) (h15 : v ≤ 15) :
    ((Parameters.Option { ServerMaxWindowBits := v }).map Parameters.Parse =
      some ({ ServerMaxWindowBits := v }, none)) ∧
    ((Parameters.Option { ClientMaxWindowBits := v }).map Parameters.Parse =
      some ({ ClientMaxWindowBits := v }, none)) ∧
    ((Parameters.Option { ClientMaxWindowBits := 1 }).map Parameters.Parse =
      some ({ ClientMaxWindowBits := 1 }, none)) := by
  interval_cases v <;> exact ⟨by decide, by decide, by decide⟩

theorem window_bits_roundtrip_spec_witness :
    (8 ≤ 9 ∧ 9 ≤ 15) ∧
    ((Parameters.Option { ServerMaxWindowBits := 9 }).map Parameters.Parse =
      some ({ ServerMaxWindowBits := 9 }, none)) ∧
    ((Parameters.Option { ClientMaxWindowBits := 9 }).map Parameters.Parse =
      some ({ ClientMaxWindowBits := 9 }, none)) ∧
    ((Parameters.Option { ClientMaxWindowBits := 1 }).map Parameters.Parse =
      some ({ ClientMaxWindowBits := 1 }, none)) :=
  ⟨⟨by decide, by decide⟩, window_bits_roundtrip_spec 9 (by decide) (by decide)⟩

end Wsflate
